import Mathlib

/-!
Shallow embedding of the Sound-Assessment repository (four Python scripts:
`Sheet_Update_runt_this.py`, `Sheet_update_new_remote.py`,
`drive_upload_run_this.py`, `drive_upload_new_remote.py`) together with
theorems settling the frozen claims about its specification.

Modelling conventions:
* Python strings are Lean `String`s; all character-level work is done on
  `String.data : List Char` so that every definition is executable and
  kernel-reducible.  Python's `\d`, `[A-Za-z0-9]`, `.upper()` etc. are
  modelled at the ASCII level, which is the range exercised by the program.
* The remote Drive tree is an inductive `FsNode`; `list_children` of a
  folder is its child list (the source's paginated listing is exhausted
  transparently, so one list is the faithful view).
* Fallible code returns `Option`; `sys.exit(1)` is an exit code in a
  result record; network calls are recorded as explicit event traces.
-/

namespace SoundAssessment

/-- ASCII digit test, the model of the regex class `\d` on the data
appearing in this program. -/
def isDig (c : Char) : Bool := 48 ≤ c.toNat && c.toNat ≤ 57

/-- Membership in `[A-Za-z0-9]`, the class kept by `re.sub(r'[^A-Za-z0-9]', '', s)`. -/
def isAsciiAlnum (c : Char) : Bool :=
  (65 ≤ c.toNat && c.toNat ≤ 90) || (97 ≤ c.toNat && c.toNat ≤ 122) || (48 ≤ c.toNat && c.toNat ≤ 57)

/-- ASCII lower-casing of one character (model of `str.lower` on the
ASCII range, which is all the report grammar needs). -/
def lowerAscii (c : Char) : Char :=
  if 65 ≤ c.toNat && c.toNat ≤ 90 then Char.ofNat (c.toNat + 32) else c

/-- ASCII upper-casing of one character (model of `str.upper`; `_keyize`
applies it after stripping everything outside `[A-Za-z0-9]`). -/
def upperAscii (c : Char) : Char :=
  if 97 ≤ c.toNat && c.toNat ≤ 122 then Char.ofNat (c.toNat - 32) else c

/-- The apostrophe character, built by code point to keep source text plain. -/
def apos : Char := Char.ofNat 39

/-- The double-quote character, built by code point. -/
def dquote : Char := Char.ofNat 34

/-- Python `str.split()` whitespace (ASCII part): space, tab, LF, CR, VT, FF. -/
def pyIsSpace (c : Char) : Bool :=
  c.toNat = 32 || c.toNat = 9 || c.toNat = 10 || c.toNat = 13 || c.toNat = 11 || c.toNat = 12

/-- Helper for `pySplitWS`: walks the characters, accumulating the current
token reversed, dropping empty tokens exactly as Python `str.split()` does. -/
def pySplitWSAux : List Char → List Char → List String
  | [], cur => if cur = [] then [] else [String.mk cur.reverse]
  | c :: cs, cur =>
    if pyIsSpace c then
      if cur = [] then pySplitWSAux cs [] else String.mk cur.reverse :: pySplitWSAux cs []
    else pySplitWSAux cs (c :: cur)

/-- Model of Python `line.split()`: split on runs of whitespace, no empty tokens. -/
def pySplitWS (s : String) : List String := pySplitWSAux s.data []

/-- Helper for `pySplitlines`: split at LF, CRLF and CR, no trailing empty line. -/
def pySplitlinesAux : List Char → List Char → List String
  | [], cur => if cur = [] then [] else [String.mk cur.reverse]
  | '\n' :: cs, cur => String.mk cur.reverse :: pySplitlinesAux cs []
  | '\r' :: '\n' :: cs, cur => String.mk cur.reverse :: pySplitlinesAux cs []
  | '\r' :: cs, cur => String.mk cur.reverse :: pySplitlinesAux cs []
  | c :: cs, cur => pySplitlinesAux cs (c :: cur)

/-- Model of Python `text.splitlines()` on the line boundaries occurring in
report files (LF, CR, CRLF); a trailing terminator adds no empty line. -/
def pySplitlines (s : String) : List String := pySplitlinesAux s.data []

/-- Model of Python `str.strip()` on ASCII whitespace. -/
def pyStrip (s : String) : String :=
  String.mk (((s.data.dropWhile pyIsSpace).reverse.dropWhile pyIsSpace).reverse)

/-- Replace every (leftmost, non-overlapping) occurrence of `pat` by `rep`,
the model of Python `str.replace` for a nonempty pattern.  The `Nat` fuel
is an upper bound on the number of steps; `replaceAll` supplies the input
length, which always suffices, and keeps the definition kernel-reducible. -/
def replaceAllAux (pat rep : List Char) : Nat → List Char → List Char
  | _, [] => []
  | 0, s => s
  | fuel + 1, c :: cs =>
    if pat.isPrefixOf (c :: cs) then rep ++ replaceAllAux pat rep fuel ((c :: cs).drop pat.length)
    else c :: replaceAllAux pat rep fuel cs

/-- Model of Python `s.replace(pat, rep)` for a nonempty `pat`. -/
def replaceAll (pat rep s : List Char) : List Char := replaceAllAux pat rep s.length s

end SoundAssessment

namespace SoundAssessment.RunThis

/-- The 15-character string literally passed as the first argument of
`name.replace(...)` on line 85 of `Sheet_Update_runt_this.py`.  The source
line is pure ASCII: `s = name.replace(''', "'").replace(''', "'")`, in
which `'''` opens a Python triple-quoted string, so the parsed call is
`name.replace(<this pattern>, "'")` — the curly-apostrophe characters the
line was evidently meant to replace are absent from the file. -/
def mojibakePattern : List Char :=
  [',', ' ', dquote, apos, dquote, ')', '.', 'r', 'e', 'p', 'l', 'a', 'c', 'e', '(']

/-- Model of `_keyize` in `Sheet_Update_runt_this.py`, lines 82-87, exactly
as the source parses: empty input gives the empty key; then the literal
`replace` call (see `mojibakePattern`), then underscores become spaces,
then every character outside `[A-Za-z0-9]` is stripped and the remainder
upper-cased. -/
def _keyize (name : String) : String :=
  if name = "" then ""
  else
    let s0 := replaceAll mojibakePattern [apos] name.data
    let s1 := s0.map (fun c => if c = '_' then ' ' else c)
    String.mk ((s1.filter isAsciiAlnum).map upperAscii)

end SoundAssessment.RunThis

namespace SoundAssessment.NewRemote

/-- Model of `_keyize` in `Sheet_update_new_remote.py`, lines 51-55: empty
input gives the empty key; underscores become spaces; every character
outside `[A-Za-z0-9]` is stripped and the remainder upper-cased. -/
def _keyize (name : String) : String :=
  if name = "" then ""
  else
    let s1 := name.data.map (fun c => if c = '_' then ' ' else c)
    String.mk ((s1.filter isAsciiAlnum).map upperAscii)

end SoundAssessment.NewRemote

namespace SoundAssessment

/-- A node of the remote Drive tree: a file (with its textual content, as
fetched by `download_file_text`) or a folder with its children.  The
`mimeType` discrimination of the source becomes the constructor. -/
inductive FsNode where
  | file (id name content : String)
  | folder (id name : String) (children : List FsNode)

/-- The opaque Drive id of a node. -/
def FsNode.nid : FsNode → String
  | .file i _ _ => i
  | .folder i _ _ => i

/-- The display name of a node. -/
def FsNode.nname : FsNode → String
  | .file _ n _ => n
  | .folder _ n _ => n

/-- Whether a node has the folder mime type. -/
def FsNode.isFolder : FsNode → Bool
  | .file _ _ _ => false
  | .folder _ _ _ => true

/-- Model of `list_children`: the children of a folder (pagination is
exhausted transparently in the source, so the full list is the view);
files have no children. -/
def list_children : FsNode → List FsNode
  | .file _ _ _ => []
  | .folder _ _ ch => ch

/-- The text of a file node, as `download_file_text` returns it. -/
def FsNode.content : FsNode → String
  | .file _ _ t => t
  | .folder _ _ _ => ""

/-- Model of `INDEX_RE = re.compile(r'_(\d{3})_123_Report\.txt$', re.IGNORECASE)`
applied with `.search`: because the pattern is anchored at the end and has a
fixed length, a match exists exactly when the last 19 characters are an
underscore, three digits, and the case-insensitive literal
`_123_Report.txt`; the returned group is the three digits. -/
def matchIndexSuffix (name : String) : Option String :=
  let cs := name.data
  if cs.length < 19 then none
  else
    match cs.drop (cs.length - 19) with
    | u :: d1 :: d2 :: d3 :: rest =>
      if u = '_' && isDig d1 && isDig d2 && isDig d3
          && (rest.map lowerAscii == "_123_report.txt".data)
      then some (String.mk [d1, d2, d3]) else none
    | _ => none

/-- Core of the breadth-first content probes: the source pushes
`(folder, depth)` pairs on a deque, skips entries whose depth exceeds the
bound, reports true on the first non-folder child whose name satisfies `p`,
and enqueues child folders one level deeper.  Because entries enter the
queue in level order, the traversal processes one whole depth level before
the next; this embedding recurses on the number of levels still allowed
(`maxDepth + 1` at the root) and returns the same Boolean as the queued
loop, whose early exit is unobservable in a pure existence check. -/
def bfsAnyFileAux (p : String → Bool) : Nat → List FsNode → Bool
  | 0, _ => false
  | rem + 1, frontier =>
    (frontier.any fun f => (list_children f).any fun ch => !ch.isFolder && p ch.nname)
    || bfsAnyFileAux p rem (frontier.flatMap fun f => (list_children f).filter FsNode.isFolder)

/-- Depth-bounded existence of a matching descendant file, phrased as a
straight structural recursion: a file among the children matches, or some
child folder has one within one level fewer.  Proven equal to the
breadth-first probe (`bfsAnyFileAux`). -/
def subtreeHasMatchingFile (p : String → Bool) : Nat → FsNode → Bool
  | 0, _ => false
  | rem + 1, f =>
    ((list_children f).any fun ch => !ch.isFolder && p ch.nname)
    || ((list_children f).filter FsNode.isFolder).any (subtreeHasMatchingFile p rem)

/-- Value of a list of ASCII digit characters read in base 10 (the core of
the model of Python `int`). -/
def digitsVal (cs : List Char) : Nat := cs.foldl (fun a c => a * 10 + (c.toNat - 48)) 0

/-- Character-list core of the model of Python `int`. -/
def pyIntCore : List Char → Option Int
  | [] => none
  | c :: rest =>
    if c = '-' then
      if !rest.isEmpty && rest.all isDig then some (-(digitsVal rest : Int)) else none
    else if c = '+' then
      if !rest.isEmpty && rest.all isDig then some ((digitsVal rest : Int)) else none
    else if (c :: rest).all isDig then some ((digitsVal (c :: rest) : Int)) else none

/-- Model of Python `int(s)` on the inputs this program can produce:
an optional sign followed by one or more ASCII digits parses; anything
else raises `ValueError`, modelled as `none`.  (Python also tolerates
surrounding whitespace and inner underscores; no caller here produces
those.) -/
def pyInt (s : String) : Option Int := pyIntCore s.data

/-- The ASCII digit character for `n < 10`. -/
def digitChar (n : Nat) : Char := Char.ofNat (48 + n)

/-- Decimal digits of a natural number, most significant first; the fuel
argument (any bound on the number of digits, `n + 1` is always enough)
keeps the definition kernel-reducible. -/
def natDecimalAux : Nat → Nat → List Char
  | 0, _ => []
  | fuel + 1, n => if n < 10 then [digitChar n] else natDecimalAux fuel (n / 10) ++ [digitChar (n % 10)]

/-- Decimal representation of a natural number. -/
def natDecimal (n : Nat) : String := String.mk (natDecimalAux (n + 1) n)

/-- Left-pad a string with `'0'` to width `w`. -/
def zeroPad (w : Nat) (s : String) : String :=
  if s.length < w then String.mk (List.replicate (w - s.length) '0') ++ s else s

/-- Model of the Python format `f"{n:03d}"`: zero-padded to width 3, the
sign (for negatives) counting toward the width. -/
def pyFormat03d (n : Int) : String :=
  if n < 0 then "-" ++ zeroPad 2 (natDecimal n.natAbs) else zeroPad 3 (natDecimal n.toNat)

/-- Strict lexicographic comparison of character lists by code point, the
model of Python string `<` used by `list.sort(key=...)` on file names. -/
def strLtChars : List Char → List Char → Bool
  | [], [] => false
  | [], _ :: _ => true
  | _ :: _, [] => false
  | a :: as, b :: bs =>
    if a.toNat < b.toNat then true else if b.toNat < a.toNat then false else strLtChars as bs

/-- Python string `<=`, derived from the strict comparison. -/
def pyStrLe (a b : String) : Bool := !(strLtChars b.data a.data)

/-- Matching of a prefix of a token against `\d{4}-\d{2}-\d{2}` (the
source uses `re.match`, which anchors at the start only). -/
def prefixDateMatch (s : String) : Bool :=
  match s.data with
  | a :: b :: c :: d :: e :: f :: g :: h :: i :: j :: _ =>
    isDig a && isDig b && isDig c && isDig d && e = '-'
      && isDig f && isDig g && h = '-' && isDig i && isDig j
  | _ => false

/-- Matching of a prefix of a token against `\d{2}:\d{2}:\d{2}`. -/
def prefixTimeMatch (s : String) : Bool :=
  match s.data with
  | a :: b :: c :: d :: e :: f :: g :: h :: _ =>
    isDig a && isDig b && c = ':' && isDig d && isDig e && f = ':' && isDig g && isDig h
  | _ => false

/-- The qualifying-line test of `extract_laeq`: at least five
whitespace-separated tokens, tokens 0 to 3 matching date, time, date, time. -/
def qualifiesLine (line : String) : Bool :=
  match pySplitWS line with
  | t0 :: t1 :: t2 :: t3 :: _ :: _ =>
    prefixDateMatch t0 && prefixTimeMatch t1 && prefixDateMatch t2 && prefixTimeMatch t3
  | _ => false

/-- The line scan of `extract_laeq`: token 4 of the first qualifying line. -/
def extractFromLines : List String → Option String
  | [] => none
  | line :: rest =>
    if qualifiesLine line then (pySplitWS line)[4]? else extractFromLines rest

/-- Model of `extract_laeq` (identical in `Sheet_Update_runt_this.py`,
lines 183-192, and `Sheet_update_new_remote.py`, lines 149-163): scan the
lines of the text and return token 4 of the first line whose tokens 0-3
match `YYYY-MM-DD HH:MM:SS YYYY-MM-DD HH:MM:SS` and which has at least
five tokens; `None` when no line qualifies. -/
def extract_laeq (text : String) : Option String := extractFromLines (pySplitlines text)

/-- Generic association-list lookup used for the Python dict tables; the
builders below cons the newest binding in front, so the first hit is the
latest assignment, matching dict overwrite semantics. -/
def assocLookup {α : Type} (t : List (String × α)) (k : String) : Option α :=
  (t.find? (fun e => e.fst == k)).map Prod.snd

/-- The common core both normalizers compute after their (idempotent or
accidental) replacements: keep exactly `[A-Za-z0-9]` and upper-case it. -/
def keyCore (cs : List Char) : List Char := (cs.filter isAsciiAlnum).map upperAscii

/-- The relation "differs only by letter case, underscore-versus-space, or
punctuation characters" between two names, written on their character
lists: matching positions carry the same letter up to ASCII case (or the
same character, or an underscore paired with a space), and characters that
are neither alphanumeric nor space nor underscore may be inserted or
dropped on either side.  This formalizes the wording of the normalization
invariance claim. -/
inductive DifferOnly : List Char → List Char → Prop
  | nil : DifferOnly [] []
  | cons {a b : Char} {as bs : List Char} :
      (upperAscii a = upperAscii b ∨ (a = '_' ∧ b = ' ') ∨ (a = ' ' ∧ b = '_')) →
      DifferOnly as bs → DifferOnly (a :: as) (b :: bs)
  | skipL {a : Char} {as bs : List Char} :
      isAsciiAlnum a = false → a ≠ ' ' → a ≠ '_' → DifferOnly as bs → DifferOnly (a :: as) bs
  | skipR {b : Char} {as bs : List Char} :
      isAsciiAlnum b = false → b ≠ ' ' → b ≠ '_' → DifferOnly as bs → DifferOnly as (b :: bs)

end SoundAssessment

namespace SoundAssessment.RunThis

/-- Model of `descend_to_folder` (`Sheet_Update_runt_this.py`, lines
107-113): the first child folder whose normalized name equals the
normalized target; the source returns its id, this model returns the node
itself (navigation continues from the same folder either way). -/
def descend_to_folder (parent : FsNode) (name : String) : Option FsNode :=
  (list_children parent).find? fun f => f.isFolder && (_keyize f.nname == _keyize name)

/-- Model of `_list_named_child_folders` (lines 115-122): all child
folders whose normalized name equals the normalized target, in discovery
order. -/
def _list_named_child_folders (parent : FsNode) (name : String) : List FsNode :=
  (list_children parent).filter fun f => f.isFolder && (_keyize f.nname == _keyize name)

/-- Model of `_is_report_file` (lines 124-128): the lower-cased name ends
with `_123_report.txt`, or `INDEX_RE` matches. -/
def _is_report_file (name : String) : Bool :=
  if name = "" then false
  else ("_123_report.txt".data.isSuffixOf (name.data.map lowerAscii))
    || (matchIndexSuffix name).isSome

/-- Model of `_folder_has_any_report` (lines 130-146): breadth-first,
depth-bounded (default 6) search under a folder for any file whose name
`_is_report_file` accepts. -/
def _folder_has_any_report (root : FsNode) (max_depth : Nat := 6) : Bool :=
  bfsAnyFileAux _is_report_file (max_depth + 1) [root]

/-- The candidate loop of `choose_class_folder_with_content`: the first
candidate whose subtree probe reports a report file. -/
def chooseFirstWithReport : List FsNode → Option FsNode
  | [] => none
  | cand :: rest =>
    if _folder_has_any_report cand then some cand else chooseFirstWithReport rest

/-- Model of `choose_class_folder_with_content` (lines 148-163): among all
same-named child folders, the first with a report-bearing descendant;
falling back to the first candidate when none has; `None` when there are
no candidates.  The source returns the chosen id, this model the node. -/
def choose_class_folder_with_content (parent : FsNode) (class_name : String) : Option FsNode :=
  let candidates := _list_named_child_folders parent class_name
  match candidates with
  | [] => none
  | first :: _ =>
    match chooseFirstWithReport candidates with
    | some cand => some cand
    | none => some first

/-- Model of `find_report_file` (lines 165-171): the first non-folder
child whose name `_is_report_file` accepts. -/
def find_report_file (folder : FsNode) : Option FsNode :=
  (list_children folder).find? fun f => !f.isFolder && _is_report_file f.nname

/-- The alternate spelling tried by `main` (line 264): swap all
underscores to spaces when the segment contains an underscore, otherwise
all spaces to underscores. -/
def altSpelling (seg : String) : String :=
  if seg.data.contains '_' then String.mk (seg.data.map fun c => if c = '_' then ' ' else c)
  else String.mk (seg.data.map fun c => if c = ' ' then '_' else c)

/-- The two-attempt segment resolution of `main` (lines 260-270): descend
with the segment as configured, and on failure with its alternate
spelling.  (`resolveSegment` is the specification's name for this inline
code.) -/
def resolveSegment (parent : FsNode) (seg : String) : Option FsNode :=
  match descend_to_folder parent seg with
  | some nxt => some nxt
  | none => descend_to_folder parent (altSpelling seg)

/-- The per-index path walk of `main`: resolve each segment in turn,
abandoning the walk at the first segment both of whose attempts fail. -/
def walkSegments (start : FsNode) : List String → Option FsNode
  | [] => some start
  | seg :: rest =>
    match resolveSegment start seg with
    | none => none
    | some nxt => walkSegments nxt rest

/-- Configuration constant `SHEET_NAME`. -/
def SHEET_NAME : String := "Main Sheet"

/-- Configuration constant `TARGET_CLASSES`. -/
def TARGET_CLASSES : List String := ["WPH 400", "WPH 603"]

/-- The folder name `Professor's Desk` from the configuration table,
assembled by code point to keep the source text plain. -/
def profDesk : String := "Professor" ++ String.mk [apos] ++ "s Desk"

/-- Configuration table `INDEX_TO_DRIVE_PATH` (lines 33-53), in insertion
order. -/
def INDEX_TO_DRIVE_PATH : List (String × List String) :=
  [ ("000", ["Local", "Without Audio", "Center"]),
    ("001", ["Local", "Without Audio", "Front_1"]),
    ("002", ["Local", "Without Audio", "Front_2"]),
    ("003", ["Local", "Without Audio", "Back_1"]),
    ("004", ["Local", "Without Audio", "Back_2"]),
    ("005", ["Local", "Without Audio", profDesk]),
    ("006", ["Local", "With Audio", "Center"]),
    ("007", ["Local", "With Audio", "Front_1"]),
    ("008", ["Local", "With Audio", "Front_2"]),
    ("009", ["Local", "With Audio", "Back_1"]),
    ("010", ["Local", "With Audio", "Back_2"]),
    ("011", ["Local", "With Audio", profDesk]),
    ("012", ["Remote_1", "Center"]),
    ("013", ["Remote_1", "Front_1"]),
    ("014", ["Remote_1", "Front_2"]),
    ("015", ["Remote_1", "Back_1"]),
    ("016", ["Remote_1", "Back_2"]),
    ("017", ["Remote_1", profDesk]),
    ("018", ["Remote_2"]) ]

/-- Configuration table `INDEX_TO_COL` (lines 55-60), in insertion order
(the order `main` iterates). -/
def INDEX_TO_COL : List (String × String) :=
  [ ("000", "C"), ("001", "D"), ("002", "E"), ("003", "F"), ("004", "G"),
    ("005", "H"), ("006", "J"), ("007", "K"), ("008", "L"), ("009", "M"),
    ("010", "N"), ("011", "O"), ("012", "Q"), ("013", "R"), ("014", "S"),
    ("015", "T"), ("016", "U"), ("017", "V"), ("018", "X") ]

/-- A recorded sheet update: its cell range and the value written. -/
abbrev Update := String × String

/-- The A1-style range `f"{SHEET_NAME}!{col}{row}"` of one update. -/
def colRange (col : String) (row : Nat) : String :=
  SHEET_NAME ++ "!" ++ col ++ natDecimal row

/-- The body of `main`'s per-index loop (lines 256-287): look up the
configured path, walk it with the two-attempt fallback, find the report
file, download and parse it, and record one update; every failure skips
just this index. -/
def processIndex (c : FsNode) (row : Nat) (idxcol : String × String) : List Update :=
  match walkSegments c ((assocLookup INDEX_TO_DRIVE_PATH idxcol.fst).getD []) with
  | none => []
  | some fid =>
    match find_report_file fid with
    | none => []
    | some f =>
      match extract_laeq f.content with
      | none => []
      | some laeq => [(colRange idxcol.snd row, laeq)]

/-- The per-class body of `main` (lines 232-287): building folder, then the
disambiguated class folder, then the sheet row, then all indices in table
order. -/
def processClass (root : FsNode) (classMap : List (String × Nat)) (class_name : String) :
    List Update :=
  let building := (pySplitWS class_name).headD ""
  match descend_to_folder root building with
  | none => []
  | some b =>
    match choose_class_folder_with_content b class_name with
    | none => []
    | some c =>
      match assocLookup classMap (_keyize class_name) with
      | none => []
      | some row => INDEX_TO_COL.flatMap (processIndex c row)

/-- All updates one run of `main` records, in recording order. -/
def collectUpdates (root : FsNode) (classMap : List (String × Nat)) : List Update :=
  TARGET_CLASSES.flatMap (processClass root classMap)

/-- The spreadsheet as the sink exposes it: tab names, each carrying the
rows its `A4:A240` read returns (a list of rows, each a list of cells). -/
structure Spreadsheet where
  tabs : List (String × List (List String))

/-- Model of the row-map builder in `map_sheet_rows` (lines 214-219):
enumerate the returned rows from 4, keep rows whose first cell strips to a
nonempty string, key them by `_keyize`; later rows overwrite earlier ones
with the same key (dict assignment), hence the newest binding is consed in
front and `assocLookup` returns it. -/
def buildRowMap (rows : List (List String)) : List (String × Nat) :=
  rows.enum.foldl
    (fun m p =>
      match p.snd with
      | [] => m
      | c0 :: _ => if pyStrip c0 = "" then m else (_keyize (pyStrip c0), p.fst + 4) :: m)
    []

/-- One call the program makes against the tabular sink. -/
inductive SinkEv where
  | getMeta
  | getRange (rangeSpec : String)
  | batchUpdate (data : List Update)

/-- Whether a sink call writes (only `batchUpdate` does). -/
def SinkEv.isWrite : SinkEv → Bool
  | .batchUpdate _ => true
  | _ => false

/-- Outcome of one run: the ordered trace of sink calls, the process exit
code (`sys.exit(1)` on the fatal paths, 0 otherwise), and whether the
caller was informed that no updates were generated. -/
structure RunResult where
  sinkTrace : List SinkEv
  exitCode : Nat
  informedNoUpdates : Bool

/-- The range spec `f"{SHEET_NAME}!A4:A240"` of the row-lookup read. -/
def rangeSpecA : String := SHEET_NAME ++ "!A4:A240"

/-- Model of `main` (lines 222-296) at the level the claims observe:
`map_sheet_rows` reads the spreadsheet metadata and exits 1 when the
configured tab is absent (before the range read); otherwise it reads
`A4:A240` and builds the row map; the Drive traversal records updates in
memory; after the traversal a single `batchUpdate` carries all updates,
or, when none were recorded, no write is made and the caller is told so. -/
def main (sheet : Spreadsheet) (root : FsNode) : RunResult :=
  if (sheet.tabs.map Prod.fst).contains SHEET_NAME then
    let rows := (assocLookup sheet.tabs SHEET_NAME).getD []
    let classMap := buildRowMap rows
    let updates := collectUpdates root classMap
    if updates.isEmpty then
      { sinkTrace := [.getMeta, .getRange rangeSpecA], exitCode := 0, informedNoUpdates := true }
    else
      { sinkTrace := [.getMeta, .getRange rangeSpecA, .batchUpdate updates], exitCode := 0,
        informedNoUpdates := false }
  else
    { sinkTrace := [.getMeta], exitCode := 1, informedNoUpdates := false }

end SoundAssessment.RunThis

namespace SoundAssessment.NewRemote

/-- Model of `is_target_report_for_index` (`Sheet_update_new_remote.py`,
lines 112-115): `INDEX_RE` matches and its captured group equals `idx`. -/
def is_target_report_for_index (name idx : String) : Bool :=
  match matchIndexSuffix name with
  | some g => g == idx
  | none => false

/-- Level-order core of `list_files_recursive` (lines 117-126): the
source's queue yields every non-folder child of each visited folder and
enqueues child folders while `d < max_depth`; visiting proceeds one whole
level at a time, so the recursion on remaining levels (`max_depth + 1` at
the root) yields the same files in the same order. -/
def list_files_recursive_aux : Nat → List FsNode → List FsNode
  | 0, _ => []
  | rem + 1, frontier =>
    (frontier.flatMap fun f => (list_children f).filter fun ch => !ch.isFolder)
    ++ list_files_recursive_aux rem (frontier.flatMap fun f => (list_children f).filter FsNode.isFolder)

/-- Model of `list_files_recursive` with its default bound 2. -/
def list_files_recursive (parent : FsNode) (max_depth : Nat := 2) : List FsNode :=
  list_files_recursive_aux (max_depth + 1) [parent]

/-- Stable insertion of a node into a name-sorted list: the new node goes
after every node whose name is `<=` its name, so nodes equal by name keep
their original relative order, as Python's stable `list.sort` guarantees. -/
def insertByName (f : FsNode) : List FsNode → List FsNode
  | [] => [f]
  | g :: gs => if pyStrLe g.nname f.nname then g :: insertByName f gs else f :: g :: gs

/-- Model of `matches.sort(key=lambda f: f['name'])`: a stable sort by
name. -/
def sortByName (l : List FsNode) : List FsNode := l.foldl (fun acc f => insertByName f acc) []

/-- Model of `find_report_file_by_index` (lines 128-137): normalize the
index through `f"{int(idx):03d}"`, collect every file within depth 2 whose
embedded index group equals it, sort by name and take the last; `None`
when nothing matches.  (On a non-numeric `idx` the source raises
`ValueError`; no caller passes one, and the model returns `none` there.) -/
def find_report_file_by_index (parent : FsNode) (idx : String) : Option (String × String) :=
  match pyInt idx with
  | none => none
  | some n =>
    match (sortByName ((list_files_recursive parent).filter fun f =>
        is_target_report_for_index f.nname (pyFormat03d n))).getLast? with
    | none => none
    | some chosen => some (chosen.nid, chosen.nname)

end SoundAssessment.NewRemote

namespace SoundAssessment.UploadNew

/-- Configuration constant `REMOTE3_NAME`. -/
def REMOTE3_NAME : String := "Remote3"

/-- Configuration constant `REMOTE4_NAME`. -/
def REMOTE4_NAME : String := "Remote4"

/-- Configuration constant `MICROPHONE_NAME`. -/
def MICROPHONE_NAME : String := "Microphone"

/-- The range dispatch of `route_index_to_folder` after the `int` parse:
0-2 to Remote3, 3-5 to Remote4, above 5 to Microphone, otherwise the
final `None`. -/
def routeFromInt (n : Int) : Option String :=
  if 0 ≤ n ∧ n ≤ 2 then some REMOTE3_NAME
  else if 3 ≤ n ∧ n ≤ 5 then some REMOTE4_NAME
  else if n > 5 then some MICROPHONE_NAME
  else none

/-- Model of `route_index_to_folder` (`drive_upload_new_remote.py`, lines
76-88): parse the index with `int` (a `ValueError` returns `None`), then
dispatch on the value (`routeFromInt`). -/
def route_index_to_folder (idx_str : String) : Option String :=
  match pyInt idx_str with
  | none => none
  | some n => routeFromInt n

end SoundAssessment.UploadNew

namespace SoundAssessment.UploadRun

/-- A folder record of the remote namespace as the upload script sees it:
id, name, parent id, trashed flag. -/
structure RFolder where
  fid : String
  fname : String
  parent : String
  trashed : Bool

/-- One Drive call `find_or_create_folder` makes: the existence query, or
a folder creation (with the id the collaborator assigned). -/
inductive UpEv where
  | listQuery (parentId name : String)
  | createFolder (parentId name newId : String)

/-- Whether an event is a folder creation. -/
def UpEv.isCreate : UpEv → Bool
  | .createFolder _ _ _ => true
  | _ => false

/-- The run state threaded through the upload helpers: the module-level
`_folder_cache` (newest binding first), the remote folder set, a fresh-id
counter standing for the collaborator's id assignment, and the ordered
call trace. -/
structure UpSt where
  cache : List ((String × String) × String)
  folders : List RFolder
  nextId : Nat
  events : List UpEv

/-- Lookup in the `(parent_id, name)`-keyed cache dictionary. -/
def cacheLookup (cache : List ((String × String) × String)) (k : String × String) :
    Option String :=
  (cache.find? (fun e => e.fst = k)).map Prod.snd

/-- The files-list query of `find_or_create_folder`: folders under the
parent with exactly the given name, not trashed. -/
def driveQueryFolders (folders : List RFolder) (parentId name : String) : List RFolder :=
  folders.filter fun f => f.parent == parentId && f.fname == name && !f.trashed

/-- The id the collaborator assigns to the `n`-th created folder. -/
def freshId (n : Nat) : String := "created_" ++ natDecimal n

/-- Model of `find_or_create_folder` (`drive_upload_run_this.py`, lines
59-83): answer from the cache when the `(parent_id, name)` key is present
(no remote call at all); otherwise query for an existing folder and take
the first hit, or create one when the query comes back empty; either way
record the result in the cache. -/
def find_or_create_folder (name parentId : String) (s : UpSt) : String × UpSt :=
  match cacheLookup s.cache (parentId, name) with
  | some fid => (fid, s)
  | none =>
    match driveQueryFolders s.folders parentId name with
    | f :: _ =>
      (f.fid, { s with cache := ((parentId, name), f.fid) :: s.cache,
                       events := s.events ++ [.listQuery parentId name] })
    | [] =>
      let fid := freshId s.nextId
      (fid, { s with cache := ((parentId, name), fid) :: s.cache,
                     folders := s.folders ++ [⟨fid, name, parentId, false⟩],
                     nextId := s.nextId + 1,
                     events := s.events ++ [.listQuery parentId name,
                                            .createFolder parentId name fid] })

/-- Configuration constant `DRIVE_ROOT_FOLDER_ID`. -/
def DRIVE_ROOT_FOLDER_ID : String := "1AiDo1LcV6JSfPOi4x0I9z89QjFnYE3cn"

/-- The walk of `resolve_drive_path`, generalized over its start: create
or reuse each segment in order. -/
def resolveSegmentsFrom : List String → String → UpSt → String × UpSt
  | [], parent, s => (parent, s)
  | seg :: rest, parent, s =>
    resolveSegmentsFrom rest (find_or_create_folder seg parent s).1
      (find_or_create_folder seg parent s).2

/-- Model of `resolve_drive_path` (lines 85-89): walk the segments from
the configured root. -/
def resolve_drive_path (segments : List String) (s : UpSt) : String × UpSt :=
  resolveSegmentsFrom segments DRIVE_ROOT_FOLDER_ID s

end SoundAssessment.UploadRun

namespace SoundAssessment

/-- Concrete report file used by the witness scenarios. -/
def wReportFile : FsNode :=
  .file "f1" "SLM_000_123_Report.txt" "2024-01-01 00:00:00 2024-01-01 01:00:00 55.3 x"

/-- Concrete class folder containing one report at the configured path. -/
def wClassTree : FsNode :=
  .folder "c1" "WPH 400"
    [ .folder "l1" "Local"
      [ .folder "w1" "Without Audio"
        [ .folder "ce1" "Center" [ wReportFile ] ] ] ]

/-- Concrete Drive root for the witness scenarios. -/
def wRoot : FsNode := .folder "r" "root" [ .folder "b1" "WPH" [ wClassTree ] ]

/-- Concrete spreadsheet whose `Main Sheet` tab lists `WPH 400` at row 4. -/
def wSheet : RunThis.Spreadsheet := ⟨[("Main Sheet", [["WPH 400"]])]⟩

/-- Concrete spreadsheet without the configured tab. -/
def wNoTabSheet : RunThis.Spreadsheet := ⟨[("Other", [["WPH 400"]])]⟩

/-- Concrete remote folder holding reports for two indices, one of them
twice at different depths. -/
def wRemoteFolder : FsNode :=
  .folder "R3" "Remote3"
    [ .file "fa" "X_000_123_Report.txt" "",
      .folder "sub" "S"
        [ .file "fb" "Y_000_123_Report.txt" "", .file "fc" "Z_001_123_Report.txt" "" ] ]

/-- Concrete upload state: empty cache, one pre-existing remote folder
under the configured root. -/
def wUpSt : UploadRun.UpSt :=
  ⟨[], [⟨"E1", "KAP", UploadRun.DRIVE_ROOT_FOLDER_ID, false⟩], 0, []⟩

end SoundAssessment

namespace SoundAssessment

/-! Helper lemmas. -/

/-- `Char.ofNat` round-trips on code points below the surrogate range. -/
theorem toNat_ofNat_valid (n : Nat) (h : n < 55296) : (Char.ofNat n).toNat = n := by
  unfold Char.ofNat
  rw [dif_pos (Or.inl h)]
  simp [Char.ofNatAux, Char.toNat, UInt32.toNat, BitVec.toNat_ofNatLt]

/-- `List.any` distributes over a pointwise disjunction. -/
theorem list_any_or {α : Type} (l : List α) (p q : α → Bool) :
    l.any (fun a => p a || q a) = (l.any p || l.any q) := by
  induction l with
  | nil => rfl
  | cons a l ih =>
    simp only [List.any_cons, ih]
    cases p a <;> cases q a <;> simp

/-- `List.any` over a `flatMap` is the nested `any`. -/
theorem list_any_flatMap {α β : Type} (l : List α) (f : α → List β) (p : β → Bool) :
    (l.flatMap f).any p = l.any fun a => (f a).any p := by
  induction l with
  | nil => rfl
  | cons a l ih => simp [List.flatMap_cons, List.any_append, ih]

/-- The level-order probe equals the per-node depth-bounded existence
check, level count by level count. -/
theorem bfsAnyFileAux_eq_any (p : String → Bool) :
    ∀ (rem : Nat) (frontier : List FsNode),
      bfsAnyFileAux p rem frontier = frontier.any (subtreeHasMatchingFile p rem) := by
  intro rem
  induction rem with
  | zero =>
    intro frontier
    simp [bfsAnyFileAux, subtreeHasMatchingFile]
  | succ rem ih =>
    intro frontier
    simp only [bfsAnyFileAux, subtreeHasMatchingFile, ih, list_any_flatMap]
    rw [← list_any_or]

/-- Unfolding of `keyCore` on a cons cell. -/
theorem keyCore_cons (a : Char) (as : List Char) :
    keyCore (a :: as) = if isAsciiAlnum a then upperAscii a :: keyCore as else keyCore as := by
  unfold keyCore
  rw [List.filter_cons]
  split <;> rfl

/-- The code point of `upperAscii c`. -/
theorem upperAscii_toNat (c : Char) :
    (upperAscii c).toNat = if 97 ≤ c.toNat ∧ c.toNat ≤ 122 then c.toNat - 32 else c.toNat := by
  unfold upperAscii
  by_cases h : (97 ≤ c.toNat && c.toNat ≤ 122) = true
  · have h2 : 97 ≤ c.toNat ∧ c.toNat ≤ 122 := by
      simpa [Bool.and_eq_true, decide_eq_true_eq] using h
    rw [if_pos h, if_pos h2, toNat_ofNat_valid _ (by omega)]
  · have h2 : ¬(97 ≤ c.toNat ∧ c.toNat ≤ 122) := by
      simpa [Bool.and_eq_true, decide_eq_true_eq] using h
    rw [if_neg h, if_neg h2]

/-- `upperAscii` is the identity outside the lower-case range. -/
theorem upperAscii_id_of_not_lower {c : Char} (h : ¬(97 ≤ c.toNat ∧ c.toNat ≤ 122)) :
    upperAscii c = c := by
  unfold upperAscii
  rw [if_neg (by simpa [Bool.and_eq_true, decide_eq_true_eq] using h)]

/-- Membership in the kept class depends only on the code point. -/
theorem isAsciiAlnum_congr {a b : Char} (h : a.toNat = b.toNat) :
    isAsciiAlnum a = isAsciiAlnum b := by
  unfold isAsciiAlnum
  rw [h]

/-- The kept class as a proposition on the code point. -/
theorem isAsciiAlnum_iff (c : Char) :
    isAsciiAlnum c = true
      ↔ (65 ≤ c.toNat ∧ c.toNat ≤ 90) ∨ (97 ≤ c.toNat ∧ c.toNat ≤ 122)
        ∨ (48 ≤ c.toNat ∧ c.toNat ≤ 57) := by
  unfold isAsciiAlnum
  simp only [Bool.or_eq_true, Bool.and_eq_true, decide_eq_true_eq]
  tauto

/-- Two characters with equal upper images are kept or dropped alike. -/
theorem isAlnum_of_upperAscii_eq {a b : Char} (h : upperAscii a = upperAscii b) :
    isAsciiAlnum a = isAsciiAlnum b := by
  have ht := congrArg Char.toNat h
  rw [upperAscii_toNat, upperAscii_toNat] at ht
  by_cases ha : 97 ≤ a.toNat ∧ a.toNat ≤ 122 <;>
    by_cases hb : 97 ≤ b.toNat ∧ b.toNat ≤ 122
  · rw [if_pos ha, if_pos hb] at ht
    exact isAsciiAlnum_congr (by omega)
  · rw [if_pos ha, if_neg hb] at ht
    have h1 : isAsciiAlnum a = true := (isAsciiAlnum_iff a).mpr (by omega)
    have h2 : isAsciiAlnum b = true := (isAsciiAlnum_iff b).mpr (by omega)
    rw [h1, h2]
  · rw [if_neg ha, if_pos hb] at ht
    have h1 : isAsciiAlnum a = true := (isAsciiAlnum_iff a).mpr (by omega)
    have h2 : isAsciiAlnum b = true := (isAsciiAlnum_iff b).mpr (by omega)
    rw [h1, h2]
  · rw [if_neg ha, if_neg hb] at ht
    exact isAsciiAlnum_congr ht

/-- `upperAscii` keeps kept characters kept. -/
theorem isAlnum_upperAscii {c : Char} (h : isAsciiAlnum c = true) :
    isAsciiAlnum (upperAscii c) = true := by
  rw [isAsciiAlnum_iff] at h ⊢
  rw [upperAscii_toNat]
  by_cases hl : 97 ≤ c.toNat ∧ c.toNat ≤ 122
  · rw [if_pos hl]; omega
  · rw [if_neg hl]; omega

/-- `upperAscii` is idempotent. -/
theorem upperAscii_upperAscii (c : Char) : upperAscii (upperAscii c) = upperAscii c := by
  by_cases hl : 97 ≤ c.toNat ∧ c.toNat ≤ 122
  · refine upperAscii_id_of_not_lower ?_
    rw [upperAscii_toNat, if_pos hl]
    omega
  · rw [upperAscii_id_of_not_lower hl, upperAscii_id_of_not_lower hl]

/-- `keyCore` is idempotent. -/
theorem keyCore_idem (cs : List Char) : keyCore (keyCore cs) = keyCore cs := by
  induction cs with
  | nil => rfl
  | cons a as ih =>
    rw [keyCore_cons]
    by_cases hA : isAsciiAlnum a = true
    · rw [if_pos hA, keyCore_cons, if_pos (isAlnum_upperAscii hA), upperAscii_upperAscii, ih]
    · rw [if_neg hA, ih]

/-- The underscore-to-space pass changes no character the filter keeps
and no character it drops. -/
theorem filter_map_u2s (cs : List Char) :
    ((cs.map fun c => if c = '_' then ' ' else c).filter isAsciiAlnum)
      = cs.filter isAsciiAlnum := by
  induction cs with
  | nil => rfl
  | cons c cs ih =>
    by_cases hc : c = '_'
    · subst hc
      rw [List.map_cons, if_pos rfl, List.filter_cons, List.filter_cons,
          if_neg (by decide), if_neg (by decide)]
      exact ih
    · rw [List.map_cons, if_neg hc, List.filter_cons, List.filter_cons]
      split <;> rw [ih]

/-- The `new_remote` normalizer is `keyCore` (the empty-name early return
agrees with it). -/
theorem newRemote_keyize_eq_keyCore (s : String) :
    NewRemote._keyize s = String.mk (keyCore s.data) := by
  unfold NewRemote._keyize
  by_cases h : s = ""
  · subst h; rfl
  · rw [if_neg h]
    unfold keyCore
    simp only [filter_map_u2s]

/-- `keyCore` is invariant under case, underscore-versus-space, and
punctuation differences. -/
theorem keyCore_differOnly {as bs : List Char} (h : DifferOnly as bs) :
    keyCore as = keyCore bs := by
  induction h with
  | nil => rfl
  | @cons a b as1 bs1 hc _ ih =>
    rcases hc with hupper | ⟨ha, hb⟩ | ⟨ha, hb⟩
    · rw [keyCore_cons, keyCore_cons, isAlnum_of_upperAscii_eq hupper]
      by_cases hB : isAsciiAlnum b = true
      · rw [if_pos hB, if_pos hB, hupper, ih]
      · rw [if_neg hB, if_neg hB, ih]
    · subst ha; subst hb
      rw [keyCore_cons, keyCore_cons, if_neg (by decide), if_neg (by decide), ih]
    · subst ha; subst hb
      rw [keyCore_cons, keyCore_cons, if_neg (by decide), if_neg (by decide), ih]
  | @skipL a as1 bs1 ha _ _ _ ih =>
    rw [keyCore_cons, if_neg (by simp [ha])]
    exact ih
  | @skipR b as1 bs1 hb _ _ _ ih =>
    rw [keyCore_cons, if_neg (by simp [hb])]
    exact ih

/-- The candidate loop of `choose_class_folder_with_content` is a
first-match search. -/
theorem chooseFirstWithReport_eq_find? :
    ∀ l : List FsNode,
      RunThis.chooseFirstWithReport l
        = l.find? (fun c => RunThis._folder_has_any_report c) := by
  intro l
  induction l with
  | nil => rfl
  | cons cand rest ih =>
    simp only [RunThis.chooseFirstWithReport, List.find?_cons]
    split <;> simp_all

end SoundAssessment

namespace SoundAssessment

/-! Claim theorems and witnesses. -/

/-- C1: over any fixed remote tree, `choose_class_folder_with_content`
collects all child folders whose normalized key equals the normalized
class name; it returns the first candidate, in discovery order, whose
subtree probe finds a report file, falls back to the first candidate when
none does, and returns `None` exactly when there are no candidates; and
the breadth-first probe bounded at depth 6 decides exactly "some
descendant file within the bound matches the report grammar". -/
theorem claim_C1_choose_contentful (parent : FsNode) (class_name : String) :
    (RunThis.choose_class_folder_with_content parent class_name = none
       ↔ RunThis._list_named_child_folders parent class_name = []) ∧
    (RunThis.choose_class_folder_with_content parent class_name =
       (match (RunThis._list_named_child_folders parent class_name).find?
           (fun c => RunThis._folder_has_any_report c) with
        | some c => some c
        | none => (RunThis._list_named_child_folders parent class_name).head?)) ∧
    (∀ f : FsNode,
       RunThis._folder_has_any_report f
         = subtreeHasMatchingFile RunThis._is_report_file 7 f) := by
  refine ⟨?_, ?_, ?_⟩
  · unfold RunThis.choose_class_folder_with_content
    cases h : RunThis._list_named_child_folders parent class_name with
    | nil => simp
    | cons first rest =>
      simp only [h]
      constructor
      · intro hcontra
        exfalso
        cases hfind : RunThis.chooseFirstWithReport (first :: rest) <;> simp [hfind] at hcontra
      · intro hcontra
        exact absurd hcontra (List.cons_ne_nil first rest)
  · unfold RunThis.choose_class_folder_with_content
    cases h : RunThis._list_named_child_folders parent class_name with
    | nil => simp
    | cons first rest =>
      simp only [h, ← chooseFirstWithReport_eq_find?]
      cases hfind : RunThis.chooseFirstWithReport (first :: rest) <;> simp [hfind]
  · intro f
    unfold RunThis._folder_has_any_report
    rw [bfsAnyFileAux_eq_any]
    simp

/-- C2 helper: the line scan returns token 4 of the first qualifying
line. -/
theorem extractFromLines_eq_find? :
    ∀ ls : List String,
      extractFromLines ls
        = (match ls.find? qualifiesLine with
           | none => none
           | some line => (pySplitWS line)[4]?) := by
  intro ls
  induction ls with
  | nil => rfl
  | cons line rest ih =>
    simp only [extractFromLines, List.find?_cons]
    cases h : qualifiesLine line <;> simp [h, ih]

/-- C2 helper: a qualifying line has at least five tokens, so token 4
exists. -/
theorem qualifies_token4_isSome (line : String) (h : qualifiesLine line = true) :
    ((pySplitWS line)[4]?).isSome = true := by
  unfold qualifiesLine at h
  split at h
  · next t0 t1 t2 t3 t4 rest heq => simp [heq]
  · exact absurd h (by simp)

/-- C2: `extract_laeq` returns token 4 of the first line splitting into
at least 5 whitespace tokens whose tokens 0-3 match date, time, date,
time; it returns `None` exactly when no line qualifies, later lines never
affect the result, and the token is returned verbatim. -/
theorem claim_C2_extract_metric (text : String) :
    (extract_laeq text
       = (match (pySplitlines text).find? qualifiesLine with
          | none => none
          | some line => (pySplitWS line)[4]?)) ∧
    (extract_laeq text = none
       ↔ ∀ line ∈ pySplitlines text, qualifiesLine line = false) := by
  refine ⟨extractFromLines_eq_find? (pySplitlines text), ?_⟩
  rw [extract_laeq, extractFromLines_eq_find? (pySplitlines text)]
  cases hfind : (pySplitlines text).find? qualifiesLine with
  | none =>
    constructor
    · intro _ line hmem
      have := List.find?_eq_none.mp hfind line hmem
      simpa using this
    · intro _
      rfl
  | some line =>
    have hq : qualifiesLine line = true := List.find?_some hfind
    have hmem : line ∈ pySplitlines text := List.mem_of_find?_eq_some hfind
    have hsome := qualifies_token4_isSome line hq
    constructor
    · intro hcontra
      exfalso
      have hnone : (pySplitWS line)[4]? = none := hcontra
      rw [hnone] at hsome
      exact Bool.noConfusion hsome
    · intro hall
      exact absurd hq (by simp [hall line hmem])

/-- C7: when the configured tab name is absent from the spreadsheet, the
run exits with status 1 and its sink trace contains no write. -/
theorem claim_C7_missing_tab_fatal (sheet : RunThis.Spreadsheet) (root : FsNode)
    (h : (sheet.tabs.map Prod.fst).contains RunThis.SHEET_NAME = false) :
    (RunThis.main sheet root).exitCode = 1 ∧
    (RunThis.main sheet root).sinkTrace.filter RunThis.SinkEv.isWrite = [] := by
  unfold RunThis.main
  rw [if_neg (fun hc => by rw [h] at hc; exact Bool.noConfusion hc)]
  exact ⟨rfl, rfl⟩

/-- C7 witness: on a spreadsheet without a `Main Sheet` tab, the run
exits 1 and never writes. -/
theorem claim_C7_witness :
    (RunThis.main wNoTabSheet wRoot).exitCode = 1 ∧
    (RunThis.main wNoTabSheet wRoot).sinkTrace.filter RunThis.SinkEv.isWrite = [] :=
  claim_C7_missing_tab_fatal wNoTabSheet wRoot (by decide)

/-- C9: the two `_keyize` implementations are not extensionally equal; on
a name containing the 15-character string that line 85 of
`Sheet_Update_runt_this.py` literally replaces (see `mojibakePattern`),
the `runt_this` normalizer deletes the letters `replace` while the
`new_remote` normalizer keeps them. -/
theorem claim_C9_keyize_divergence :
    RunThis._keyize (String.mk (['x'] ++ RunThis.mojibakePattern ++ ['y'])) = "XY"
    ∧ NewRemote._keyize (String.mk (['x'] ++ RunThis.mojibakePattern ++ ['y'])) = "XREPLACEY"
    ∧ RunThis._keyize (String.mk (['x'] ++ RunThis.mojibakePattern ++ ['y']))
        ≠ NewRemote._keyize (String.mk (['x'] ++ RunThis.mojibakePattern ++ ['y'])) :=
  ⟨by decide, by decide, by decide⟩

/-- C3 helper: the strict code-point comparison is irreflexive. -/
theorem strLtChars_irrefl : ∀ cs : List Char, strLtChars cs cs = false := by
  intro cs
  induction cs with
  | nil => rfl
  | cons a as ih => simp [strLtChars, Nat.lt_irrefl, ih]

/-- C3 helper: the strict code-point comparison is asymmetric. -/
theorem strLtChars_asymm : ∀ as bs : List Char,
    strLtChars as bs = true → strLtChars bs as = false := by
  intro as
  induction as with
  | nil =>
    intro bs h
    cases bs with
    | nil => exact absurd h (by simp [strLtChars])
    | cons b bs => rfl
  | cons a as ih =>
    intro bs h
    cases bs with
    | nil => exact absurd h (by simp [strLtChars])
    | cons b bs =>
      unfold strLtChars at h ⊢
      by_cases h1 : a.toNat < b.toNat
      · rw [if_neg (by omega), if_pos h1]
      · by_cases h2 : b.toNat < a.toNat
        · rw [if_neg h1, if_pos h2] at h
          exact Bool.noConfusion h
        · rw [if_neg h1, if_neg h2] at h
          rw [if_neg h2, if_neg h1]
          exact ih bs h

/-- C3 helper: a strict bound resolves against any third list. -/
theorem strLtChars_resolve : ∀ cs as bs : List Char,
    strLtChars cs as = true → strLtChars cs bs = true ∨ strLtChars bs as = true := by
  intro cs
  induction cs with
  | nil =>
    intro as bs h
    cases as with
    | nil => exact absurd h (by simp [strLtChars])
    | cons a as =>
      cases bs with
      | nil => exact Or.inr (by simp [strLtChars])
      | cons b bs => exact Or.inl (by simp [strLtChars])
  | cons c cs ih =>
    intro as bs h
    cases as with
    | nil => exact absurd h (by simp [strLtChars])
    | cons a as =>
      cases bs with
      | nil => exact Or.inr (by simp [strLtChars])
      | cons b bs =>
        unfold strLtChars at h
        by_cases hca : c.toNat < a.toNat
        · by_cases hcb : c.toNat < b.toNat
          · exact Or.inl (by unfold strLtChars; rw [if_pos hcb])
          · refine Or.inr ?_
            unfold strLtChars
            rw [if_pos (by omega)]
        · by_cases hac : a.toNat < c.toNat
          · rw [if_neg hca, if_pos hac] at h
            exact Bool.noConfusion h
          · rw [if_neg hca, if_neg hac] at h
            by_cases hcb : c.toNat < b.toNat
            · exact Or.inl (by unfold strLtChars; rw [if_pos hcb])
            · by_cases hbc : b.toNat < c.toNat
              · refine Or.inr ?_
                unfold strLtChars
                rw [if_pos (by omega)]
              · rcases ih as bs h with h' | h'
                · refine Or.inl ?_
                  unfold strLtChars
                  rw [if_neg hcb, if_neg hbc]
                  exact h'
                · refine Or.inr ?_
                  unfold strLtChars
                  rw [if_neg (by omega), if_neg (by omega)]
                  exact h'

/-- C3 helper: the modelled Python string order is reflexive. -/
theorem pyStrLe_refl (a : String) : pyStrLe a a = true := by
  unfold pyStrLe
  rw [strLtChars_irrefl]
  rfl

/-- C3 helper: the modelled Python string order is total. -/
theorem pyStrLe_total (a b : String) : pyStrLe a b = true ∨ pyStrLe b a = true := by
  unfold pyStrLe
  cases h : strLtChars b.data a.data with
  | false => exact Or.inl rfl
  | true => exact Or.inr (by rw [strLtChars_asymm _ _ h]; rfl)

/-- C3 helper: the modelled Python string order is transitive. -/
theorem pyStrLe_trans {a b c : String}
    (h1 : pyStrLe a b = true) (h2 : pyStrLe b c = true) : pyStrLe a c = true := by
  unfold pyStrLe at h1 h2 ⊢
  cases h : strLtChars c.data a.data with
  | false => rfl
  | true =>
    exfalso
    rcases strLtChars_resolve c.data a.data b.data h with h' | h'
    · rw [h'] at h2
      exact Bool.noConfusion h2
    · rw [h'] at h1
      exact Bool.noConfusion h1

/-- C3 helper: membership after a stable insertion. -/
theorem mem_insertByName (f x : FsNode) :
    ∀ l, x ∈ NewRemote.insertByName f l ↔ x = f ∨ x ∈ l := by
  intro l
  induction l with
  | nil => simp [NewRemote.insertByName]
  | cons g gs ih =>
    unfold NewRemote.insertByName
    split
    · rw [List.mem_cons, ih, List.mem_cons]
      tauto
    · rw [List.mem_cons, List.mem_cons]

/-- C3 helper: stable insertion preserves name-sortedness. -/
theorem pairwise_insertByName (f : FsNode) :
    ∀ l, List.Pairwise (fun x y => pyStrLe x.nname y.nname = true) l →
      List.Pairwise (fun x y => pyStrLe x.nname y.nname = true) (NewRemote.insertByName f l) := by
  intro l
  induction l with
  | nil => intro _; exact List.pairwise_cons.mpr ⟨by simp, List.Pairwise.nil⟩
  | cons g gs ih =>
    intro hp
    rw [List.pairwise_cons] at hp
    obtain ⟨hg, hgs⟩ := hp
    unfold NewRemote.insertByName
    by_cases hle : pyStrLe g.nname f.nname = true
    · rw [if_pos hle, List.pairwise_cons]
      refine ⟨?_, ih hgs⟩
      intro y hy
      rcases (mem_insertByName f y gs).mp hy with rfl | hy
      · exact hle
      · exact hg y hy
    · rw [if_neg hle, List.pairwise_cons]
      have hfg : pyStrLe f.nname g.nname = true := by
        rcases pyStrLe_total g.nname f.nname with h | h
        · exact absurd h hle
        · exact h
      refine ⟨?_, List.pairwise_cons.mpr ⟨hg, hgs⟩⟩
      intro y hy
      rcases List.mem_cons.mp hy with rfl | hy
      · exact hfg
      · exact pyStrLe_trans hfg (hg y hy)

/-- C3 helper: in a name-sorted list, the last element has the greatest
name. -/
theorem pairwise_le_getLast :
    ∀ (l : List FsNode) (g : FsNode),
      List.Pairwise (fun x y => pyStrLe x.nname y.nname = true) l →
      l.getLast? = some g → ∀ x ∈ l, pyStrLe x.nname g.nname = true := by
  intro l
  induction l with
  | nil =>
    intro g _ hg
    exact absurd hg (by simp)
  | cons a rest ih =>
    intro g hp hg x hx
    cases rest with
    | nil =>
      have hga : g = a := by
        have h2 : some a = some g := hg
        exact (Option.some.inj h2).symm
      rcases List.mem_singleton.mp hx with rfl
      rw [hga]
      exact pyStrLe_refl _
    | cons b rest2 =>
      have hg2 : (b :: rest2).getLast? = some g := by
        rw [← List.getLast?_cons_cons]
        exact hg
      rw [List.pairwise_cons] at hp
      rcases List.mem_cons.mp hx with rfl | hx2
      · have hgmem : g ∈ b :: rest2 := by
          rcases List.getLast?_eq_some_iff.mp hg2 with ⟨ys, hys⟩
          rw [hys]
          exact List.mem_append.mpr (Or.inr (by simp))
        exact hp.1 g hgmem
      · exact ih g hp.2 hg2 x hx2

/-- C3 helper: membership through the sort's fold. -/
theorem sortByName_go_mem (x : FsNode) :
    ∀ (l acc : List FsNode),
      (x ∈ l.foldl (fun acc f => NewRemote.insertByName f acc) acc ↔ x ∈ l ∨ x ∈ acc) := by
  intro l
  induction l with
  | nil => simp
  | cons f fs ih =>
    intro acc
    rw [List.foldl_cons, ih, mem_insertByName, List.mem_cons]
    tauto

/-- C3 helper: the sort's fold preserves sortedness. -/
theorem sortByName_go_pairwise :
    ∀ (l acc : List FsNode),
      List.Pairwise (fun x y => pyStrLe x.nname y.nname = true) acc →
      List.Pairwise (fun x y => pyStrLe x.nname y.nname = true)
        (l.foldl (fun acc f => NewRemote.insertByName f acc) acc) := by
  intro l
  induction l with
  | nil => intro acc h; exact h
  | cons f fs ih =>
    intro acc h
    rw [List.foldl_cons]
    exact ih _ (pairwise_insertByName f acc h)

/-- C3 helper: `sortByName` permutes membership. -/
theorem mem_sortByName (x : FsNode) (l : List FsNode) :
    x ∈ NewRemote.sortByName l ↔ x ∈ l := by
  unfold NewRemote.sortByName
  rw [sortByName_go_mem]
  simp

/-- C3 helper: `sortByName` sorts by name. -/
theorem pairwise_sortByName (l : List FsNode) :
    List.Pairwise (fun x y => pyStrLe x.nname y.nname = true) (NewRemote.sortByName l) :=
  sortByName_go_pairwise l [] List.Pairwise.nil

/-- C3 helper: `sortByName` is empty exactly on the empty list. -/
theorem sortByName_eq_nil_iff (l : List FsNode) :
    NewRemote.sortByName l = [] ↔ l = [] := by
  constructor
  · intro h
    cases hl : l with
    | nil => rfl
    | cons f fs =>
      exfalso
      have hmem : f ∈ NewRemote.sortByName l := (mem_sortByName f l).mpr (by rw [hl]; simp)
      rw [h] at hmem
      exact List.not_mem_nil f hmem
  · intro h
    rw [h]
    rfl

/-- C8 helper: the freshly consed cache binding is found first. -/
theorem cacheLookup_cons_self (cache : List ((String × String) × String))
    (k : String × String) (v : String) :
    UploadRun.cacheLookup ((k, v) :: cache) k = some v := by
  unfold UploadRun.cacheLookup
  rw [List.find?_cons]
  have hd : decide ((k, v).1 = k) = true := by simp
  rw [hd]
  rfl

/-- C8 helper: a cons with a different key does not affect a lookup. -/
theorem cacheLookup_cons_ne (cache : List ((String × String) × String))
    {key k : String × String} (v : String) (h : key ≠ k) :
    UploadRun.cacheLookup ((key, v) :: cache) k = UploadRun.cacheLookup cache k := by
  unfold UploadRun.cacheLookup
  rw [List.find?_cons]
  have hd : decide ((key, v).1 = k) = false := by simp [h]
  rw [hd]

/-- C8 helper: a cache hit answers from the cache and leaves the whole
state unchanged. -/
theorem focf_cacheHit {name parentId fid : String} {s : UploadRun.UpSt}
    (h : UploadRun.cacheLookup s.cache (parentId, name) = some fid) :
    UploadRun.find_or_create_folder name parentId s = (fid, s) := by
  unfold UploadRun.find_or_create_folder
  rw [h]

/-- C8 helper: after any `find_or_create_folder` call its key is cached
with the returned id. -/
theorem focf_caches (name parentId : String) (s : UploadRun.UpSt) :
    UploadRun.cacheLookup (UploadRun.find_or_create_folder name parentId s).2.cache
        (parentId, name)
      = some (UploadRun.find_or_create_folder name parentId s).1 := by
  unfold UploadRun.find_or_create_folder
  cases hc : UploadRun.cacheLookup s.cache (parentId, name) with
  | some fid => simpa using hc
  | none =>
    cases hq : UploadRun.driveQueryFolders s.folders parentId name with
    | cons f rest => exact cacheLookup_cons_self _ _ _
    | nil => exact cacheLookup_cons_self _ _ _

/-- C8 helper: `find_or_create_folder` never disturbs an existing cache
binding. -/
theorem focf_cache_mono (name parentId : String) (s : UploadRun.UpSt)
    {k : String × String} {v : String} (h : UploadRun.cacheLookup s.cache k = some v) :
    UploadRun.cacheLookup (UploadRun.find_or_create_folder name parentId s).2.cache k
      = some v := by
  unfold UploadRun.find_or_create_folder
  cases hc : UploadRun.cacheLookup s.cache (parentId, name) with
  | some fid => exact h
  | none =>
    have hk : (parentId, name) ≠ k := by
      intro hEq
      rw [hEq] at hc
      rw [hc] at h
      exact Option.noConfusion h
    cases hq : UploadRun.driveQueryFolders s.folders parentId name with
    | cons f rest => rw [cacheLookup_cons_ne _ _ hk]; exact h
    | nil => rw [cacheLookup_cons_ne _ _ hk]; exact h

/-- C8 helper: the segment walk never disturbs an existing cache
binding. -/
theorem resolveFrom_cache_mono (segs : List String) :
    ∀ (p : String) (s : UploadRun.UpSt) {k : String × String} {v : String},
      UploadRun.cacheLookup s.cache k = some v →
      UploadRun.cacheLookup (UploadRun.resolveSegmentsFrom segs p s).2.cache k = some v := by
  induction segs with
  | nil => intro p s k v h; exact h
  | cons seg rest ih =>
    intro p s k v h
    exact ih _ _ (focf_cache_mono seg p s h)

/-- C8 helper: walking the same segments again from the state a first
walk produced returns the same node id and the very same state. -/
theorem resolveFrom_idem (segs : List String) :
    ∀ (p : String) (s : UploadRun.UpSt),
      UploadRun.resolveSegmentsFrom segs p (UploadRun.resolveSegmentsFrom segs p s).2
        = UploadRun.resolveSegmentsFrom segs p s := by
  induction segs with
  | nil => intro p s; rfl
  | cons seg rest ih =>
    intro p s
    have hcached := resolveFrom_cache_mono rest
      (UploadRun.find_or_create_folder seg p s).1
      (UploadRun.find_or_create_folder seg p s).2
      (focf_caches seg p s)
    simp only [UploadRun.resolveSegmentsFrom]
    rw [focf_cacheHit hcached]
    exact ih _ _

/-- C8: during upload, re-resolving the same segment sequence within one
run returns the same folder id and leaves the state (its remote folders,
cache and call trace) untouched, so no create call is issued; when the
cache misses but a matching folder already exists remotely, the first
match's id is returned with no create call and no new folder; and a
create event is issued exactly when the cache lookup misses and the
remote query finds no existing match. -/
theorem claim_C8_upload_idempotent :
    (∀ (segs : List String) (s : UploadRun.UpSt),
       UploadRun.resolve_drive_path segs (UploadRun.resolve_drive_path segs s).2
         = ((UploadRun.resolve_drive_path segs s).1, (UploadRun.resolve_drive_path segs s).2)) ∧
    (∀ (name parentId : String) (s : UploadRun.UpSt) (f : UploadRun.RFolder)
        (rest : List UploadRun.RFolder),
       UploadRun.cacheLookup s.cache (parentId, name) = none →
       UploadRun.driveQueryFolders s.folders parentId name = f :: rest →
       (UploadRun.find_or_create_folder name parentId s).1 = f.fid
       ∧ (UploadRun.find_or_create_folder name parentId s).2.folders = s.folders
       ∧ (UploadRun.find_or_create_folder name parentId s).2.events
           = s.events ++ [UploadRun.UpEv.listQuery parentId name]) ∧
    (∀ (name parentId : String) (s : UploadRun.UpSt),
       ((UploadRun.find_or_create_folder name parentId s).2.events.filter UploadRun.UpEv.isCreate
          ≠ s.events.filter UploadRun.UpEv.isCreate)
         ↔ (UploadRun.cacheLookup s.cache (parentId, name) = none
             ∧ UploadRun.driveQueryFolders s.folders parentId name = [])) := by
  refine ⟨?_, ?_, ?_⟩
  · intro segs s
    unfold UploadRun.resolve_drive_path
    rw [resolveFrom_idem]
  · intro name parentId s f rest h1 h2
    unfold UploadRun.find_or_create_folder
    simp [h1, h2]
  · intro name parentId s
    unfold UploadRun.find_or_create_folder
    cases hc : UploadRun.cacheLookup s.cache (parentId, name) with
    | some fid =>
      constructor
      · intro hne
        exact absurd rfl hne
      · rintro ⟨hnone, -⟩
        exact Option.noConfusion hnone
    | none =>
      cases hq : UploadRun.driveQueryFolders s.folders parentId name with
      | cons f rest =>
        constructor
        · intro hne
          refine absurd ?_ hne
          rw [List.filter_append]
          simp [UploadRun.UpEv.isCreate]
        · rintro ⟨-, hnil⟩
          exact List.noConfusion hnil
      | nil =>
        constructor
        · intro _
          exact ⟨rfl, rfl⟩
        · intro _
          rw [List.filter_append]
          simp only [List.filter_cons, List.filter_nil]
          intro heq
          have hlen := congrArg List.length heq
          simp [UploadRun.UpEv.isCreate] at hlen

/-- C3 helper: decimal form of a one-digit number. -/
theorem natDecimalAux_small {n : Nat} (h : n < 10) (fuel : Nat) :
    natDecimalAux (fuel + 1) n = [digitChar n] := by
  unfold natDecimalAux
  rw [if_pos h]

/-- C3 helper: decimal form of a two-digit number. -/
theorem natDecimalAux_two {n : Nat} (h1 : 10 ≤ n) (h2 : n < 100) (fuel : Nat) :
    natDecimalAux (fuel + 2) n = [digitChar (n / 10), digitChar (n % 10)] := by
  show natDecimalAux ((fuel + 1) + 1) n = _
  unfold natDecimalAux
  rw [if_neg (by omega), natDecimalAux_small (by omega) fuel]
  rfl

/-- C3 helper: decimal form of a three-digit number. -/
theorem natDecimalAux_three {n : Nat} (h1 : 100 ≤ n) (h2 : n < 1000) (fuel : Nat) :
    natDecimalAux (fuel + 3) n
      = [digitChar (n / 100), digitChar (n / 10 % 10), digitChar (n % 10)] := by
  show natDecimalAux ((fuel + 2) + 1) n = _
  unfold natDecimalAux
  rw [if_neg (by omega), natDecimalAux_two (by omega) (by omega) fuel,
      Nat.div_div_eq_div_mul]
  rfl

/-- C3 helper: `digitChar` inverts the digit value of a digit character. -/
theorem digitChar_eval {c : Char} (h : isDig c = true) : digitChar (c.toNat - 48) = c := by
  have hr : 48 ≤ c.toNat ∧ c.toNat ≤ 57 := by
    simpa [isDig, Bool.and_eq_true, decide_eq_true_eq] using h
  unfold digitChar
  rw [show 48 + (c.toNat - 48) = c.toNat by omega, Char.ofNat_toNat]

/-- C3 helper: the `%03d` format of a value up to 999 is its three
zero-padded decimal digits. -/
theorem pyFormat03d_threeDigitVal {v : Nat} (h : v ≤ 999) :
    pyFormat03d ((v : Nat) : Int)
      = String.mk [digitChar (v / 100), digitChar (v / 10 % 10), digitChar (v % 10)] := by
  unfold pyFormat03d
  rw [if_neg (by omega), Int.toNat_natCast]
  unfold natDecimal zeroPad
  by_cases h1 : v < 10
  · rw [natDecimalAux_small h1 v,
        if_pos (show (String.mk [digitChar v]).length < 3 by show 1 < 3; omega),
        show v / 100 = 0 by omega, show v / 10 % 10 = 0 by omega,
        show v % 10 = v by omega, show digitChar 0 = '0' by decide]
    rfl
  · by_cases h2 : v < 100
    · rw [show v + 1 = (v - 1) + 2 by omega, natDecimalAux_two (by omega) h2 (v - 1),
          if_pos (show (String.mk [digitChar (v / 10), digitChar (v % 10)]).length < 3 by
            show 2 < 3; omega),
          show v / 100 = 0 by omega, show v / 10 % 10 = v / 10 by omega,
          show digitChar 0 = '0' by decide]
      rfl
    · rw [show v + 1 = (v - 2) + 3 by omega, natDecimalAux_three (by omega) (by omega) (v - 2),
          if_neg (show ¬(String.mk [digitChar (v / 100), digitChar (v / 10 % 10),
              digitChar (v % 10)]).length < 3 by show ¬3 < 3; omega)]

/-- C3 helper: formatting the parsed value of three digit characters with
`%03d` gives the three characters back. -/
theorem pyInt_format_roundtrip {a b c : Char}
    (ha : isDig a = true) (hb : isDig b = true) (hc : isDig c = true) :
    pyFormat03d ((digitsVal [a, b, c] : Nat) : Int) = String.mk [a, b, c] := by
  have hra : 48 ≤ a.toNat ∧ a.toNat ≤ 57 := by
    simpa [isDig, Bool.and_eq_true, decide_eq_true_eq] using ha
  have hrb : 48 ≤ b.toNat ∧ b.toNat ≤ 57 := by
    simpa [isDig, Bool.and_eq_true, decide_eq_true_eq] using hb
  have hrc : 48 ≤ c.toNat ∧ c.toNat ≤ 57 := by
    simpa [isDig, Bool.and_eq_true, decide_eq_true_eq] using hc
  have hval : digitsVal [a, b, c]
      = ((0 * 10 + (a.toNat - 48)) * 10 + (b.toNat - 48)) * 10 + (c.toNat - 48) := rfl
  rw [pyFormat03d_threeDigitVal (by rw [hval]; omega),
      show digitsVal [a, b, c] / 100 = a.toNat - 48 by rw [hval]; omega,
      show digitsVal [a, b, c] / 10 % 10 = b.toNat - 48 by rw [hval]; omega,
      show digitsVal [a, b, c] % 10 = c.toNat - 48 by rw [hval]; omega,
      digitChar_eval ha, digitChar_eval hb, digitChar_eval hc]

/-- C8 witness: on a concrete state with one pre-existing `KAP` folder,
the lookup path returns its id with no creation and no folder change, and
re-resolving the whole `KAP / KAP 113` path returns the same id and the
identical state. -/
theorem claim_C8_witness :
    ((UploadRun.find_or_create_folder "KAP" UploadRun.DRIVE_ROOT_FOLDER_ID wUpSt).1 = "E1"
     ∧ (UploadRun.find_or_create_folder "KAP" UploadRun.DRIVE_ROOT_FOLDER_ID wUpSt).2.folders
         = wUpSt.folders
     ∧ (UploadRun.find_or_create_folder "KAP" UploadRun.DRIVE_ROOT_FOLDER_ID wUpSt).2.events
         = wUpSt.events
           ++ [UploadRun.UpEv.listQuery UploadRun.DRIVE_ROOT_FOLDER_ID "KAP"]) ∧
    (UploadRun.resolve_drive_path ["KAP", "KAP 113"]
        (UploadRun.resolve_drive_path ["KAP", "KAP 113"] wUpSt).2
      = ((UploadRun.resolve_drive_path ["KAP", "KAP 113"] wUpSt).1,
         (UploadRun.resolve_drive_path ["KAP", "KAP 113"] wUpSt).2)) :=
  ⟨claim_C8_upload_idempotent.2.1 "KAP" UploadRun.DRIVE_ROOT_FOLDER_ID wUpSt
      ⟨"E1", "KAP", UploadRun.DRIVE_ROOT_FOLDER_ID, false⟩ [] rfl rfl,
   claim_C8_upload_idempotent.1 ["KAP", "KAP 113"] wUpSt⟩

/-- C10 helper: a nonempty all-digit string parses as the nonnegative
base-10 value of its digits. -/
theorem pyInt_digits (s : String) (c : Char) (rest : List Char)
    (hdata : s.data = c :: rest) (hall : (c :: rest).all isDig = true) :
    pyInt s = some ((digitsVal (c :: rest) : Nat) : Int) := by
  have hc : isDig c = true := by
    have h2 := hall
    rw [List.all_cons, Bool.and_eq_true] at h2
    exact h2.1
  unfold pyInt
  rw [hdata]
  simp only [pyIntCore]
  rw [if_neg (fun hEq => by subst hEq; exact absurd hc (by decide)),
      if_neg (fun hEq => by subst hEq; exact absurd hc (by decide)),
      if_pos hall]

/-- C10: every 3-digit index string is routed, to Remote3 for values 0-2,
Remote4 for 3-5, Microphone above 5, never to `None`; and the `None`
result is reachable only for inputs that are not decimal numerals. -/
theorem claim_C10_route_total :
    (∀ (s : String) (a b c : Char), s.data = [a, b, c] →
       isDig a = true → isDig b = true → isDig c = true →
       UploadNew.route_index_to_folder s =
         some (if digitsVal [a, b, c] ≤ 2 then UploadNew.REMOTE3_NAME
               else if digitsVal [a, b, c] ≤ 5 then UploadNew.REMOTE4_NAME
               else UploadNew.MICROPHONE_NAME)) ∧
    (∀ s : String, UploadNew.route_index_to_folder s = none →
       ¬(s.data ≠ [] ∧ s.data.all isDig = true)) := by
  have hdispatch : ∀ v : Nat,
      UploadNew.routeFromInt ((v : Nat) : Int) =
        some (if v ≤ 2 then UploadNew.REMOTE3_NAME
              else if v ≤ 5 then UploadNew.REMOTE4_NAME
              else UploadNew.MICROPHONE_NAME) := by
    intro v
    unfold UploadNew.routeFromInt
    by_cases h1 : v ≤ 2
    · rw [if_pos ⟨Int.natCast_nonneg v, by exact_mod_cast h1⟩, if_pos h1]
    · rw [if_neg (fun hcon => h1 (by exact_mod_cast hcon.2))]
      by_cases h2 : v ≤ 5
      · have h3 : (3 : Int) ≤ (v : Int) := by exact_mod_cast (by omega : 3 ≤ v)
        rw [if_pos ⟨h3, by exact_mod_cast h2⟩, if_neg h1, if_pos h2]
      · rw [if_neg (fun hcon => h2 (by exact_mod_cast hcon.2)),
            if_pos (by exact_mod_cast (by omega : 5 < v)), if_neg h1, if_neg h2]
  have hparse : ∀ (s : String) (c : Char) (rest : List Char), s.data = c :: rest →
      (c :: rest).all isDig = true →
      UploadNew.route_index_to_folder s = UploadNew.routeFromInt ((digitsVal (c :: rest) : Nat) : Int) := by
    intro s c rest hdata hall
    unfold UploadNew.route_index_to_folder
    rw [pyInt_digits s c rest hdata hall]
  constructor
  · intro s a b c hdata ha hb hc
    rw [hparse s a [b, c] hdata (by simp [ha, hb, hc]), hdispatch]
  · intro s hroute hcon
    obtain ⟨hne, hall⟩ := hcon
    cases hdata : s.data with
    | nil => exact hne hdata
    | cons c rest =>
      have hall2 : (c :: rest).all isDig = true := by rw [hdata] at hall; exact hall
      rw [hparse s c rest hdata hall2, hdispatch] at hroute
      exact Option.noConfusion hroute

/-- C3: for every folder and 3-digit target index, the index-filtered
matcher considers exactly the non-folder descendants within recursion
depth 2 whose embedded 3-digit group equals the target, returns `None`
exactly when none matches, and otherwise returns a matching file whose
name is lexicographically greatest among the matches. -/
theorem claim_C3_index_matcher (parent : FsNode) (idx : String) (a b c : Char)
    (hdata : idx.data = [a, b, c])
    (ha : isDig a = true) (hb : isDig b = true) (hc : isDig c = true) :
    (NewRemote.find_report_file_by_index parent idx = none
       ↔ (NewRemote.list_files_recursive parent).filter
           (fun f => NewRemote.is_target_report_for_index f.nname idx) = []) ∧
    (∀ i n, NewRemote.find_report_file_by_index parent idx = some (i, n) →
       (∃ f ∈ (NewRemote.list_files_recursive parent).filter
            (fun f => NewRemote.is_target_report_for_index f.nname idx),
          f.nid = i ∧ f.nname = n)
       ∧ ∀ f ∈ (NewRemote.list_files_recursive parent).filter
            (fun f => NewRemote.is_target_report_for_index f.nname idx),
          pyStrLe f.nname n = true) := by
  have hpy : pyInt idx = some ((digitsVal [a, b, c] : Nat) : Int) :=
    pyInt_digits idx a [b, c] hdata (by simp [List.all_cons, ha, hb, hc])
  have hidx : String.mk [a, b, c] = idx := by
    rw [← hdata]
  have hfmt : pyFormat03d ((digitsVal [a, b, c] : Nat) : Int) = idx := by
    rw [pyInt_format_roundtrip ha hb hc, hidx]
  have hunf : NewRemote.find_report_file_by_index parent idx
      = (match (NewRemote.sortByName ((NewRemote.list_files_recursive parent).filter fun f =>
            NewRemote.is_target_report_for_index f.nname idx)).getLast? with
         | none => none
         | some chosen => some (chosen.nid, chosen.nname)) := by
    unfold NewRemote.find_report_file_by_index
    rw [hpy]
    simp only [hfmt]
  rw [hunf]
  cases hlast : (NewRemote.sortByName ((NewRemote.list_files_recursive parent).filter fun f =>
      NewRemote.is_target_report_for_index f.nname idx)).getLast? with
  | none =>
    refine ⟨⟨fun _ => ?_, fun _ => rfl⟩, fun i n hcontra => ?_⟩
    · exact (sortByName_eq_nil_iff _).mp (List.getLast?_eq_none_iff.mp hlast)
    · exact Option.noConfusion hcontra
  | some chosen =>
    have hmemsort : chosen ∈ NewRemote.sortByName
        ((NewRemote.list_files_recursive parent).filter fun f =>
          NewRemote.is_target_report_for_index f.nname idx) := by
      rcases List.getLast?_eq_some_iff.mp hlast with ⟨ys, hys⟩
      rw [hys]
      exact List.mem_append.mpr (Or.inr (by simp))
    have hmem := (mem_sortByName _ _).mp hmemsort
    constructor
    · constructor
      · intro hcontra
        exact absurd hcontra (by simp)
      · intro hnil
        rw [hnil] at hlast
        exact Option.noConfusion hlast
    · intro i n heq
      have hpair : chosen.nid = i ∧ chosen.nname = n := by
        have h2 := Option.some.inj heq
        exact ⟨congrArg Prod.fst h2, congrArg Prod.snd h2⟩
      refine ⟨⟨chosen, hmem, hpair.1, hpair.2⟩, ?_⟩
      intro f hf
      rw [← hpair.2]
      exact pairwise_le_getLast _ chosen (pairwise_sortByName _) hlast f
        ((mem_sortByName f _).mpr hf)

/-- C3 witness: on a concrete folder holding `X_000_123_Report.txt` at
depth 1 and `Y_000_123_Report.txt` at depth 2, the matcher returns the
lexicographically greater `Y` file, a member of the match set that bounds
every match. -/
theorem claim_C3_witness :
    (∃ f ∈ (NewRemote.list_files_recursive wRemoteFolder).filter
         (fun f => NewRemote.is_target_report_for_index f.nname "000"),
       f.nid = "fb" ∧ f.nname = "Y_000_123_Report.txt")
    ∧ ∀ f ∈ (NewRemote.list_files_recursive wRemoteFolder).filter
         (fun f => NewRemote.is_target_report_for_index f.nname "000"),
        pyStrLe f.nname "Y_000_123_Report.txt" = true :=
  (claim_C3_index_matcher wRemoteFolder "000" '0' '0' '0'
      (by decide) (by decide) (by decide) (by decide)).2
    "fb" "Y_000_123_Report.txt" rfl

/-- C4: the normalization claim holds of the intact `_keyize` of
`Sheet_update_new_remote.py` (invariance under case, underscore-space and
punctuation differences; idempotence; empty to empty), but the literal
`_keyize` of `Sheet_Update_runt_this.py` violates the invariance: its
line 85 parses as replacing the 15-character `mojibakePattern` (which
contains the letters `replace`) by an apostrophe, so the two names
`mojibakePattern` and `" replace"`, which differ only by punctuation, get
the different keys `""` and `"REPLACE"`. -/
theorem claim_C4_normalizer :
    (∀ a b : String, DifferOnly a.data b.data → NewRemote._keyize a = NewRemote._keyize b) ∧
    (∀ x : String, NewRemote._keyize (NewRemote._keyize x) = NewRemote._keyize x) ∧
    (NewRemote._keyize "" = "") ∧
    DifferOnly (String.mk RunThis.mojibakePattern).data (" replace" : String).data ∧
    RunThis._keyize (String.mk RunThis.mojibakePattern) = "" ∧
    RunThis._keyize " replace" = "REPLACE" ∧
    RunThis._keyize (String.mk RunThis.mojibakePattern) ≠ RunThis._keyize " replace" := by
  refine ⟨?_, ?_, by decide, ?_, by decide, by decide, by decide⟩
  · intro a b h
    rw [newRemote_keyize_eq_keyCore, newRemote_keyize_eq_keyCore, keyCore_differOnly h]
  · intro x
    rw [newRemote_keyize_eq_keyCore x, newRemote_keyize_eq_keyCore]
    show String.mk (keyCore (keyCore x.data)) = String.mk (keyCore x.data)
    rw [keyCore_idem]
  · show DifferOnly
      [',', ' ', dquote, apos, dquote, ')', '.', 'r', 'e', 'p', 'l', 'a', 'c', 'e', '(']
      [' ', 'r', 'e', 'p', 'l', 'a', 'c', 'e']
    apply DifferOnly.skipL (by decide) (by decide) (by decide)
    apply DifferOnly.cons (Or.inl rfl)
    apply DifferOnly.skipL (by decide) (by decide) (by decide)
    apply DifferOnly.skipL (by decide) (by decide) (by decide)
    apply DifferOnly.skipL (by decide) (by decide) (by decide)
    apply DifferOnly.skipL (by decide) (by decide) (by decide)
    apply DifferOnly.skipL (by decide) (by decide) (by decide)
    apply DifferOnly.cons (Or.inl rfl)
    apply DifferOnly.cons (Or.inl rfl)
    apply DifferOnly.cons (Or.inl rfl)
    apply DifferOnly.cons (Or.inl rfl)
    apply DifferOnly.cons (Or.inl rfl)
    apply DifferOnly.cons (Or.inl rfl)
    apply DifferOnly.cons (Or.inl rfl)
    apply DifferOnly.skipL (by decide) (by decide) (by decide)
    exact DifferOnly.nil

/-- C4 witness: the invariance part applied at a concrete pair differing
by letter case and by underscore-versus-space. -/
theorem claim_C4_witness :
    NewRemote._keyize (String.mk ['F', 'r', 'o', 'n', 't', '_', '1'])
      = NewRemote._keyize (String.mk ['f', 'r', 'o', 'n', 't', ' ', '1']) := by
  apply claim_C4_normalizer.1
  show DifferOnly ['F', 'r', 'o', 'n', 't', '_', '1'] ['f', 'r', 'o', 'n', 't', ' ', '1']
  apply DifferOnly.cons (Or.inl (by decide))
  apply DifferOnly.cons (Or.inl rfl)
  apply DifferOnly.cons (Or.inl rfl)
  apply DifferOnly.cons (Or.inl rfl)
  apply DifferOnly.cons (Or.inl rfl)
  apply DifferOnly.cons (Or.inr (Or.inl ⟨rfl, rfl⟩))
  apply DifferOnly.cons (Or.inl rfl)
  exact DifferOnly.nil

/-- C5: each path segment is resolved by first descending with the
segment as configured; only on failure is the single alternate spelling
(underscores to spaces when the segment has an underscore, spaces to
underscores otherwise) tried; an index whose path fails both attempts
contributes nothing while every other index is processed unchanged; and a
configured `Front_1` resolves against a tree containing only a folder
named `Front 1`. -/
theorem claim_C5_segment_fallback :
    (∀ (p : FsNode) (seg : String) (x : FsNode),
       RunThis.descend_to_folder p seg = some x → RunThis.resolveSegment p seg = some x) ∧
    (∀ (p : FsNode) (seg : String),
       RunThis.descend_to_folder p seg = none →
       RunThis.resolveSegment p seg = RunThis.descend_to_folder p (RunThis.altSpelling seg)) ∧
    (∀ (c : FsNode) (row : Nat) (pre post : List (String × String)) (bad : String × String),
       RunThis.walkSegments c ((assocLookup RunThis.INDEX_TO_DRIVE_PATH bad.fst).getD []) = none →
       (pre ++ bad :: post).flatMap (RunThis.processIndex c row)
         = pre.flatMap (RunThis.processIndex c row)
           ++ post.flatMap (RunThis.processIndex c row)) ∧
    (∀ (pid pname fid : String) (ch : List FsNode),
       RunThis.resolveSegment (.folder pid pname [.folder fid "Front 1" ch]) "Front_1"
         = some (.folder fid "Front 1" ch)) := by
  refine ⟨?_, ?_, ?_, ?_⟩
  · intro p seg x h
    unfold RunThis.resolveSegment
    rw [h]
  · intro p seg h
    unfold RunThis.resolveSegment
    rw [h]
  · intro c row pre post bad hbad
    rw [List.flatMap_append, List.flatMap_cons]
    have hnil : RunThis.processIndex c row bad = [] := by
      unfold RunThis.processIndex
      rw [hbad]
    rw [hnil, List.nil_append]
  · intro pid pname fid ch
    have hkey : (RunThis._keyize "Front 1" == RunThis._keyize "Front_1") = true := by decide
    unfold RunThis.resolveSegment RunThis.descend_to_folder
    simp [list_children, List.find?, FsNode.isFolder, FsNode.nname, hkey]

/-- C5 witness: the fallback attempt on a tree without the segment, the
skipped index leaving its siblings untouched, and the `Front_1` versus
`Front 1` resolution, all at concrete inputs. -/
theorem claim_C5_witness :
    (RunThis.resolveSegment (.folder "p" "P" [.folder "q" "Center" []]) "Xyz_1"
       = RunThis.descend_to_folder (.folder "p" "P" [.folder "q" "Center" []])
           (RunThis.altSpelling "Xyz_1")) ∧
    (([("000", "C"), ("012", "Q")] : List (String × String)).flatMap
        (RunThis.processIndex wClassTree 4)
       = ([("000", "C")] : List (String × String)).flatMap (RunThis.processIndex wClassTree 4)
         ++ ([] : List (String × String)).flatMap (RunThis.processIndex wClassTree 4)) ∧
    (RunThis.resolveSegment (.folder "p" "P" [.folder "q" "Front 1" []]) "Front_1"
       = some (.folder "q" "Front 1" [])) :=
  ⟨claim_C5_segment_fallback.2.1 (.folder "p" "P" [.folder "q" "Center" []]) "Xyz_1" rfl,
   claim_C5_segment_fallback.2.2.1 wClassTree 4 [("000", "C")] [] ("012", "Q") rfl,
   claim_C5_segment_fallback.2.2.2 "p" "P" "q" []⟩

/-- C6: with the configured tab present, one run makes exactly one
batched write carrying all recorded updates when at least one update was
recorded, makes none when none was (and informs the caller), and every
write in the sink trace comes after every non-write call. -/
theorem claim_C6_single_batched_flush (sheet : RunThis.Spreadsheet) (root : FsNode)
    (htab : (sheet.tabs.map Prod.fst).contains RunThis.SHEET_NAME = true) :
    ((RunThis.main sheet root).sinkTrace.filter RunThis.SinkEv.isWrite
       = (if (RunThis.collectUpdates root (RunThis.buildRowMap
                ((assocLookup sheet.tabs RunThis.SHEET_NAME).getD []))).isEmpty
          then []
          else [RunThis.SinkEv.batchUpdate (RunThis.collectUpdates root (RunThis.buildRowMap
                ((assocLookup sheet.tabs RunThis.SHEET_NAME).getD [])))])) ∧
    ((RunThis.collectUpdates root (RunThis.buildRowMap
        ((assocLookup sheet.tabs RunThis.SHEET_NAME).getD []))).isEmpty = true →
       (RunThis.main sheet root).sinkTrace.filter RunThis.SinkEv.isWrite = []
       ∧ (RunThis.main sheet root).informedNoUpdates = true) ∧
    ((RunThis.main sheet root).sinkTrace
       = (RunThis.main sheet root).sinkTrace.filter (fun e => !(RunThis.SinkEv.isWrite e))
         ++ (RunThis.main sheet root).sinkTrace.filter RunThis.SinkEv.isWrite) := by
  unfold RunThis.main
  rw [if_pos htab]
  cases hU : (RunThis.collectUpdates root (RunThis.buildRowMap
      ((assocLookup sheet.tabs RunThis.SHEET_NAME).getD []))).isEmpty <;>
    simp [hU, List.filter, RunThis.SinkEv.isWrite]

/-- C6 witness: on a concrete spreadsheet and tree producing one update,
the run's only write is the single batched call with that update. -/
theorem claim_C6_witness :
    (RunThis.main wSheet wRoot).sinkTrace.filter RunThis.SinkEv.isWrite
      = [RunThis.SinkEv.batchUpdate (RunThis.collectUpdates wRoot (RunThis.buildRowMap
           ((assocLookup wSheet.tabs RunThis.SHEET_NAME).getD [])))] := by
  have h := (claim_C6_single_batched_flush wSheet wRoot (by decide)).1
  rw [h]
  rfl

/-- C10 witness: concrete routings, including the negative-signed input
that reaches the final branch while not being a decimal numeral. -/
theorem claim_C10_witness :
    (UploadNew.route_index_to_folder "004"
       = some (if digitsVal ['0', '0', '4'] ≤ 2 then UploadNew.REMOTE3_NAME
               else if digitsVal ['0', '0', '4'] ≤ 5 then UploadNew.REMOTE4_NAME
               else UploadNew.MICROPHONE_NAME)) ∧
    ¬(("-9" : String).data ≠ [] ∧ ("-9" : String).data.all isDig = true) :=
  ⟨claim_C10_route_total.1 "004" '0' '0' '4' rfl (by decide) (by decide) (by decide),
   claim_C10_route_total.2 "-9" rfl⟩

end SoundAssessment
